import Mathlib

/-!
Verification of the PageRank / link-statistics analysis program
(`pagerank_analysis.py`).  The pure core of the program — graph
construction from the downloaded corpus, link statistics, and the
iterative PageRank computation — is embedded shallowly below; floating
point arithmetic is modelled by exact rational arithmetic (`ℚ`), Python
dictionaries keyed by the page set by total functions together with the
explicit key list, and Python exceptions by `Except`.
-/

namespace Pagerank

/-- Pages are integer identifiers (`int(filename.replace('.html', ''))`). -/
abbrev Page := Int

/-- `graph` is a `defaultdict(list)`: a total map from a page to its list of
outgoing edge targets, defaulting to `[]`. -/
abbrev Graph := Page → List Page

/-- Exception kinds the Python code can raise in its pure core. -/
inductive PyError
  | valueError
  | zeroDivisionError
  | statisticsError
deriving DecidableEq, Repr

deriving instance DecidableEq for Except

/-! ## PageRank engine (`compute_pagerank`, `pagerank_analysis.py` lines 143-208) -/

/-- `dangling_nodes = [page for page in pages if len(graph[page]) == 0]`
(line 168). -/
def danglingNodes (graph : Graph) (pages : List Page) : List Page :=
  pages.filter (fun p => (graph p).length == 0)

/-- `dangling_sum = sum(pagerank[page] for page in dangling_nodes)` (line 176). -/
def danglingSum (graph : Graph) (pages : List Page) (r : Page → ℚ) : ℚ :=
  ((danglingNodes graph pages).map r).sum

/-- The incoming-links map (lines 162-165): `incoming[target]` collects, over
`page in pages` and `target in graph[page]`, one occurrence of `page` per
occurrence of the edge.  Denotationally, `incomingOf pages graph t` is the
list holding each `q ∈ pages` repeated once per occurrence of `t` in
`graph q`. -/
def incomingOf (pages : List Page) (graph : Graph) (t : Page) : List Page :=
  pages.foldr (fun q acc => (((graph q).filter (fun x => x == t)).map (fun _ => q)) ++ acc) []

/-- The body of the per-page update (lines 180-186):
`rank = (1-d)/n + d*(dangling_sum/n)`, then for each `incoming_page` in the
incoming list, `if outgoing_count > 0: rank += d * (pagerank[incoming_page]/outgoing_count)`. -/
def rankUpdate (d : ℚ) (n : ℕ) (graph : Graph) (r : Page → ℚ) (ds : ℚ)
    (inc : List Page) : ℚ :=
  inc.foldl
    (fun rank q =>
      if 0 < (graph q).length then rank + d * (r q / ((graph q).length : ℚ)) else rank)
    ((1 - d) / (n : ℚ) + d * (ds / (n : ℚ)))

/-- One synchronous iteration (lines 173-188): every new value is computed
from the previous vector `r`; `dangling_sum` is computed once per iteration. -/
def pagerankStep (d : ℚ) (pages : List Page) (graph : Graph) (r : Page → ℚ) :
    Page → ℚ :=
  let ds := danglingSum graph pages r
  fun p => rankUpdate d pages.length graph r ds (incomingOf pages graph p)

/-- The vector after `k` iterations, starting from the uniform vector
`{page: 1.0/n for page in pages}` (line 159). -/
def iterRank (d : ℚ) (pages : List Page) (graph : Graph) : ℕ → Page → ℚ
  | 0 => fun _ => 1 / (pages.length : ℚ)
  | k + 1 => pagerankStep d pages graph (iterRank d pages graph k)

/-- `sum(pagerank.values())` for a vector keyed by `pages`. -/
def totalRank (pages : List Page) (r : Page → ℚ) : ℚ :=
  (pages.map r).sum

/-- Total rank mass after `k` iterations. -/
def totalAt (d : ℚ) (pages : List Page) (graph : Graph) (k : ℕ) : ℚ :=
  totalRank pages (iterRank d pages graph k)

/-- The relative change tested after iteration `k+1`:
`change = abs(total_new - total_old) / total_old` (line 193). -/
def changeAt (d : ℚ) (pages : List Page) (graph : Graph) (k : ℕ) : ℚ :=
  |totalAt d pages graph (k + 1) - totalAt d pages graph k| / totalAt d pages graph k

/-- The `while iteration < max_iterations` loop (lines 171-203), with
`fuel = max_iterations - iteration` as the structural measure.  Each pass
computes the new vector, then `change`; Python raises `ZeroDivisionError`
when `total_old` is exactly zero; the vector and counter are replaced, and
the loop breaks when `change < tolerance`. -/
def pagerankLoop (d ε : ℚ) (pages : List Page) (graph : Graph) :
    (Page → ℚ) → ℕ → ℕ → Except PyError ((Page → ℚ) × ℕ)
  | r, iteration, 0 => .ok (r, iteration)
  | r, iteration, fuel + 1 =>
    let newR := pagerankStep d pages graph r
    let totalOld := totalRank pages r
    let totalNew := totalRank pages newR
    if totalOld = 0 then .error .zeroDivisionError
    else if |totalNew - totalOld| / totalOld < ε then .ok (newR, iteration + 1)
    else pagerankLoop d ε pages graph newR (iteration + 1) fuel

/-- `compute_pagerank(graph, pages, damping, tolerance, max_iterations)`
(lines 143-208).  The returned dictionary has exactly the keys `pages`
(line 178/188); it is rendered as the association list pairing each page
with its final rank.  The function returns `(pagerank, iteration)` — and
nothing else. -/
def compute_pagerank (graph : Graph) (pages : List Page) (d ε : ℚ)
    (maxIter : ℕ) : Except PyError (List (Page × ℚ) × ℕ) :=
  match pagerankLoop d ε pages graph (fun _ => 1 / (pages.length : ℚ)) 0 maxIter with
  | .error e => .error e
  | .ok (r, k) => .ok (pages.map (fun p => (p, r p)), k)

/-! ## Link extractor (`parse_links`, lines 76-81)

`re.findall(r'<a HREF="(\d+)\.html">', html_content)` scans left to right for
non-overlapping matches of the fixed pattern; since a digit can never match
the following literal dot, the greedy `\d+` never backtracks, so the regex is
equivalent to the literal scanner below. -/

/-- The literal prefix of the anchor pattern. -/
def litOpen : List Char := ['<', 'a', ' ', 'H', 'R', 'E', 'F', '=', '\"']

/-- The literal suffix of the anchor pattern after the digits. -/
def litClose : List Char := ['.', 'h', 't', 'm', 'l', '\"', '>']

/-- Decimal value of a digit list (`int(link)` on the captured group). -/
def digitsToNat (l : List Char) : ℕ :=
  l.foldl (fun a c => 10 * a + (c.toNat - 48)) 0

/-- Fueled scanner for the anchor pattern; the fuel is the input length
(each step consumes at least one character). -/
def scanLinks : ℕ → List Char → List Page
  | 0, _ => []
  | _ + 1, [] => []
  | fuel + 1, c :: rest =>
    if litOpen.isPrefixOf (c :: rest) then
      let afterOpen := (c :: rest).drop litOpen.length
      let ds := afterOpen.takeWhile Char.isDigit
      let afterDs := afterOpen.drop ds.length
      if !ds.isEmpty && litClose.isPrefixOf afterDs then
        ((digitsToNat ds : ℕ) : Page) :: scanLinks fuel (afterDs.drop litClose.length)
      else scanLinks fuel rest
    else scanLinks fuel rest

/-- `parse_links(html_content)`: ordered sequence of integer link targets,
duplicates preserved. -/
def parse_links (s : String) : List Page := scanLinks s.data.length s.data

/-! ## Graph builder (`build_graph`, lines 83-107)

Every filename is turned into a page number by
`int(filename.replace('.html', ''))`: all occurrences of the substring
`.html` are removed, and Python's `int` constructor parses the remainder
(optional surrounding whitespace, optional sign, digits with single interior
underscores), raising `ValueError` when it cannot. -/

/-- `filename.replace('.html', '')`: delete every (leftmost-first,
non-overlapping) occurrence of `.html`; fueled by the input length. -/
def stripHtmlAux : ℕ → List Char → List Char
  | 0, _ => []
  | _ + 1, [] => []
  | fuel + 1, c :: rest =>
    if ['.', 'h', 't', 'm', 'l'].isPrefixOf (c :: rest) then
      stripHtmlAux fuel ((c :: rest).drop 5)
    else c :: stripHtmlAux fuel rest

/-- `filename.replace('.html', '')` on strings. -/
def stripHtml (s : String) : String := ⟨stripHtmlAux s.data.length s.data⟩

/-- No two adjacent underscores (Python `int` rejects `1__2`). -/
def noDoubleUnderscore : List Char → Bool
  | [] => true
  | [_] => true
  | a :: b :: t => !(a == '_' && b == '_') && noDoubleUnderscore (b :: t)

/-- A digit group acceptable to Python `int` after the optional sign:
non-empty, digits and interior single underscores only. -/
def okDigitGroup (l : List Char) : Bool :=
  !l.isEmpty && l.all (fun c => c.isDigit || c == '_')
    && !(l.headD 'x' == '_') && !(l.getLastD 'x' == '_') && noDoubleUnderscore l

/-- Model of Python's `int(s)` on decimal strings: strip whitespace, read an
optional sign and a digit group; `none` models the `ValueError`. -/
def pyInt (s : String) : Option ℤ :=
  let t := ((s.data.dropWhile Char.isWhitespace).reverse.dropWhile Char.isWhitespace).reverse
  match t with
  | '+' :: rest =>
    if okDigitGroup rest then some ((digitsToNat (rest.filter (fun c => !(c == '_'))) : ℕ) : ℤ)
    else none
  | '-' :: rest =>
    if okDigitGroup rest then some (-((digitsToNat (rest.filter (fun c => !(c == '_'))) : ℕ) : ℤ))
    else none
  | rest =>
    if okDigitGroup rest then some ((digitsToNat (rest.filter (fun c => !(c == '_'))) : ℕ) : ℤ)
    else none

/-- `int(filename.replace('.html', ''))` (lines 94 and 99). -/
def parsePage (filename : String) : Option ℤ := pyInt (stripHtml filename)

/-- The first loop of `build_graph` (lines 91-95): collect the page set,
aborting with `ValueError` at the first filename that does not parse. -/
def collectPages : List (String × String) → Finset Page → Except PyError (Finset Page)
  | [], acc => .ok acc
  | fc :: rest, acc =>
    match parsePage fc.1 with
    | some z => collectPages rest (insert z acc)
    | none => .error .valueError

/-- `build_graph(files_content)` (lines 83-107): page set from the
filenames, outgoing map `graph` (a `defaultdict(list)` written once per
file), and the incoming map.  An unparsable filename aborts the whole
builder; no partial result is returned. -/
def build_graph (files_content : List (String × String)) :
    Except PyError (Graph × Graph × Finset Page) := do
  let pages ← collectPages files_content ∅
  let graph := files_content.foldl (fun g fc =>
    match parsePage fc.1 with
    | some z => Function.update g z (parse_links fc.2)
    | none => g) (fun _ => [])
  let incoming := files_content.foldl (fun inc fc =>
    match parsePage fc.1 with
    | some z =>
      (parse_links fc.2).foldl (fun inc2 t => Function.update inc2 t (inc2 t ++ [z])) inc
    | none => inc) (fun _ => [])
  return (graph, incoming, pages)

/-- The page-set component of `build_graph`'s result. -/
def buildPages (files_content : List (String × String)) : Except PyError (Finset Page) :=
  (build_graph files_content).map (fun r => r.2.2)

/-! ## Link statistics engine (`compute_statistics`, lines 109-141) -/

/-- Insertion step of a simple sort (`sorted(data)` in `statistics`). -/
def insertSorted (x : ℕ) : List ℕ → List ℕ
  | [] => [x]
  | y :: t => if x ≤ y then x :: y :: t else y :: insertSorted x t

/-- Ascending sort of the data, as `statistics.median`/`quantiles` do. -/
def pySort (l : List ℕ) : List ℕ := l.foldr insertSorted []

/-- `statistics.mean`: raises `StatisticsError` on empty data. -/
def pyMean (l : List ℕ) : Except PyError ℚ :=
  if l.isEmpty then .error .statisticsError
  else .ok ((l.map (fun x => (x : ℚ))).sum / (l.length : ℚ))

/-- `statistics.median`: middle of the sorted data, mean of the two middle
values on even length; raises `StatisticsError` on empty data. -/
def pyMedian (l : List ℕ) : Except PyError ℚ :=
  let n := l.length
  let s := pySort l
  if n = 0 then .error .statisticsError
  else if n % 2 = 1 then .ok ((s.getD (n / 2) 0 : ℚ))
  else .ok (((s.getD (n / 2 - 1) 0 : ℚ) + (s.getD (n / 2) 0 : ℚ)) / 2)

/-- Python `max`: raises `ValueError` on an empty sequence. -/
def pyMax (l : List ℕ) : Except PyError ℕ :=
  match l with
  | [] => .error .valueError
  | a :: t => .ok (t.foldl Nat.max a)

/-- Python `min`: raises `ValueError` on an empty sequence. -/
def pyMin (l : List ℕ) : Except PyError ℕ :=
  match l with
  | [] => .error .valueError
  | a :: t => .ok (t.foldl Nat.min a)

/-- `statistics.quantiles(data, n=n)` with the default `exclusive` method
(CPython): requires at least two data points, computes for each
`i ∈ 1..n-1` the clamped interpolated cut `(data[j-1]*(n-delta) + data[j]*delta)/n`
with `j = clamp(i*(ld+1)//n, 1, ld-1)` and `delta = i*(ld+1) - j*n`. -/
def pyQuantiles (l : List ℕ) (n : ℕ) : Except PyError (List ℚ) :=
  if n < 1 then .error .statisticsError
  else
    let ld := l.length
    if ld < 2 then .error .statisticsError
    else
      let data := pySort l
      .ok ((List.range (n - 1)).map (fun k =>
        let i := k + 1
        let j0 := i * (ld + 1) / n
        let j := if j0 < 1 then 1 else if j0 > ld - 1 then ld - 1 else j0
        let delta : ℤ := (i : ℤ) * ((ld : ℤ) + 1) - (j : ℤ) * (n : ℤ)
        ((data.getD (j - 1) 0 : ℚ) * ((n : ℚ) - (delta : ℚ))
          + (data.getD j 0 : ℚ) * (delta : ℚ)) / (n : ℚ)))

/-- `outgoing_counts = [len(graph[page]) for page in pages]` (line 113). -/
def outgoingCounts (graph : Graph) (pages : List Page) : List ℕ :=
  pages.map (fun p => (graph p).length)

/-- The tally `incoming_counts[t]` built by lines 117-119: one increment per
occurrence of `t` among the edges out of the pages. -/
def incomingCount (pages : List Page) (graph : Graph) (t : Page) : ℕ :=
  (pages.map (fun p => (graph p).count t)).sum

/-- `incoming_values = [incoming_counts[page] for page in pages]` (line 121):
the in-degree distribution is read only at the pages of the page set. -/
def incomingValues (pages : List Page) (graph : Graph) : List ℕ :=
  pages.map (incomingCount pages graph)

/-- The statistics record built for one degree distribution (lines 124-139). -/
structure DistStats where
  average : ℚ
  median : ℚ
  max : ℕ
  min : ℕ
  quintiles : List ℚ
deriving DecidableEq, Repr

/-- `compute_statistics(graph, pages)` (lines 109-141): the outgoing and
incoming degree statistics, each `mean / median / max / min / quantiles(n=5)`,
evaluated in the order of the Python dict literal; the first raising
component aborts the whole computation. -/
def compute_statistics (graph : Graph) (pages : List Page) :
    Except PyError (DistStats × DistStats) := do
  let outgoing_counts := outgoingCounts graph pages
  let incoming_values := incomingValues pages graph
  let oavg ← pyMean outgoing_counts
  let omed ← pyMedian outgoing_counts
  let omax ← pyMax outgoing_counts
  let omin ← pyMin outgoing_counts
  let oq ← pyQuantiles outgoing_counts 5
  let iavg ← pyMean incoming_values
  let imed ← pyMedian incoming_values
  let imax ← pyMax incoming_values
  let imin ← pyMin incoming_values
  let iq ← pyQuantiles incoming_values 5
  return (⟨oavg, omed, omax, omin, oq⟩, ⟨iavg, imed, imax, imin, iq⟩)

/-! ## Definitions taken from the specification's wording (used to state
claims, not translated from the source) -/

/-- The per-page update formula as the specification words it: the direct
sum ranges over the pages `q` (each counted once) that have an edge to `p`
and positive out-degree. -/
def specNewRank (d : ℚ) (pages : List Page) (graph : Graph) (r : Page → ℚ)
    (p : Page) : ℚ :=
  let n : ℚ := (pages.length : ℚ)
  (1 - d) / n
    + d * (∑ q ∈ pages.toFinset.filter (fun q => (graph q).length = 0), r q) / n
    + d * ∑ q ∈ pages.toFinset.filter (fun q => p ∈ graph q ∧ 0 < (graph q).length),
        r q / ((graph q).length : ℚ)

/-- A filename of the form `<digits>.html` (claim C7's wording). -/
def isDigitsHtml (s : String) : Bool :=
  let l := s.data
  decide (6 ≤ l.length) && (l.drop (l.length - 5) == ['.', 'h', 't', 'm', 'l'])
    && (l.take (l.length - 5)).all Char.isDigit

/-- The graph with the phantom edges (targets outside the page set) removed. -/
def inCorpus (pages : List Page) (graph : Graph) : Graph :=
  fun q => (graph q).filter (fun t => decide (t ∈ pages))

/-! ## Small concrete graphs used in counterexamples and witnesses -/

/-- Page `0` links once to the out-of-corpus page `1`. -/
def gPhantom : Graph := fun n => if n = 0 then [1] else []

/-- Every page is dangling (no outgoing links at all). -/
def gEmptyOut : Graph := fun _ => []

/-- A double edge `0 → 1` (the link occurs twice in the document);
page `1` is dangling. -/
def gDup : Graph := fun n => if n = 0 then [1, 1] else []

/-- The 2-cycle `0 → 1 → 0`; every edge target lies in the page set `{0, 1}`. -/
def gCycle : Graph := fun n => if n = 0 then [1] else if n = 1 then [0] else []

/-! ## Basic lemmas about the iteration step -/

lemma foldl_add_eq (g : Page → ℚ) : ∀ (l : List Page) (b : ℚ),
    l.foldl (fun acc q => acc + g q) b = b + (l.map g).sum
  | [], b => by simp
  | q :: t, b => by
    rw [List.foldl_cons, foldl_add_eq g t (b + g q)]
    simp [add_assoc]

lemma rankUpdate_eq_sum (d : ℚ) (n : ℕ) (graph : Graph) (r : Page → ℚ) (ds : ℚ)
    (inc : List Page) :
    rankUpdate d n graph r ds inc
      = (1 - d) / (n : ℚ) + d * (ds / (n : ℚ))
        + (inc.map (fun q =>
            if 0 < (graph q).length then d * (r q / ((graph q).length : ℚ)) else 0)).sum := by
  unfold rankUpdate
  have hfun : (fun (rank : ℚ) (q : Page) =>
      if 0 < (graph q).length then rank + d * (r q / ((graph q).length : ℚ)) else rank)
      = fun (rank : ℚ) (q : Page) => rank +
          (if 0 < (graph q).length then d * (r q / ((graph q).length : ℚ)) else 0) := by
    funext rank q
    by_cases h : 0 < (graph q).length <;> simp [h]
  rw [hfun, foldl_add_eq]

lemma incomingOf_nil (graph : Graph) (t : Page) : incomingOf [] graph t = [] := rfl

lemma incomingOf_cons (graph : Graph) (q t : Page) (rest : List Page) :
    incomingOf (q :: rest) graph t
      = (((graph q).filter (fun x => x == t)).map (fun _ => q)) ++ incomingOf rest graph t := rfl

lemma incoming_map_sum (graph : Graph) (t : Page) (g : Page → ℚ) :
    ∀ pages : List Page,
      ((incomingOf pages graph t).map g).sum
        = (pages.map (fun q => ((graph q).count t : ℚ) * g q)).sum
  | [] => by simp [incomingOf_nil]
  | q :: rest => by
    rw [incomingOf_cons, List.map_append, List.sum_append, incoming_map_sum graph t g rest,
      List.map_cons, List.sum_cons]
    congr 1
    rw [List.map_map]
    have : (g ∘ fun _ => q) = fun (_ : Page) => g q := rfl
    rw [this, List.map_const', List.sum_replicate, nsmul_eq_mul, List.count,
      List.countP_eq_length_filter]

lemma list_sum_count_mem (S : Finset Page) : ∀ (l : List Page),
    (∑ p ∈ S, l.count p) = (l.filter (fun t => decide (t ∈ S))).length
  | [] => by simp
  | a :: l => by
    have h1 : ∀ p : Page, (a :: l).count p = l.count p + if p = a then 1 else 0 := by
      intro p
      by_cases hp : p = a
      · subst hp
        simp [List.count_cons]
      · simp [List.count_cons, hp, Ne.symm hp]
    simp only [h1, Finset.sum_add_distrib, Finset.sum_ite_eq' S a (fun _ => 1),
      list_sum_count_mem S l]
    by_cases h : a ∈ S <;> simp [h, List.filter_cons]

lemma pagerankStep_eq (d : ℚ) (pages : List Page) (graph : Graph) (r : Page → ℚ)
    (hnd : pages.Nodup) (p : Page) :
    pagerankStep d pages graph r p
      = (1 - d) / (pages.length : ℚ)
        + d * ((∑ q ∈ pages.toFinset.filter (fun q => (graph q).length = 0), r q)
            / (pages.length : ℚ))
        + ∑ q ∈ pages.toFinset.filter (fun q => 0 < (graph q).length),
            ((graph q).count p : ℚ) * (d * (r q / ((graph q).length : ℚ))) := by
  have hds : danglingSum graph pages r
      = ∑ q ∈ pages.toFinset.filter (fun q => (graph q).length = 0), r q := by
    unfold danglingSum danglingNodes
    rw [← List.sum_toFinset r (List.Nodup.filter _ hnd), List.toFinset_filter]
    congr 1
    apply Finset.filter_congr
    intro x _
    simp
  unfold pagerankStep
  rw [rankUpdate_eq_sum, incoming_map_sum, hds,
    ← List.sum_toFinset _ hnd,
    ← Finset.sum_filter_add_sum_filter_not pages.toFinset (fun q => 0 < (graph q).length)]
  have hzero : ∑ q ∈ pages.toFinset.filter (fun q => ¬ 0 < (graph q).length),
      ((graph q).count p : ℚ) * (if 0 < (graph q).length then d * (r q / ((graph q).length : ℚ)) else 0)
      = 0 := by
    apply Finset.sum_eq_zero
    intro q hq
    rcases Finset.mem_filter.mp hq with ⟨-, hq2⟩
    simp [if_neg hq2]
  have hpos : ∑ q ∈ pages.toFinset.filter (fun q => 0 < (graph q).length),
      ((graph q).count p : ℚ) * (if 0 < (graph q).length then d * (r q / ((graph q).length : ℚ)) else 0)
      = ∑ q ∈ pages.toFinset.filter (fun q => 0 < (graph q).length),
          ((graph q).count p : ℚ) * (d * (r q / ((graph q).length : ℚ))) := by
    apply Finset.sum_congr rfl
    intro q hq
    rcases Finset.mem_filter.mp hq with ⟨-, hq2⟩
    rw [if_pos hq2]
  rw [hzero, hpos]
  ring

/-! ## Conservation of total rank mass on in-corpus graphs -/

lemma length_cast_ne_zero (pages : List Page) (hne : pages ≠ []) :
    ((pages.length : ℚ)) ≠ 0 := by
  have : pages.length ≠ 0 := fun h => hne (List.length_eq_zero.mp h)
  exact_mod_cast this

lemma totalRank_step (d : ℚ) (pages : List Page) (graph : Graph) (r : Page → ℚ)
    (hne : pages ≠ []) (hnd : pages.Nodup)
    (hcl : ∀ q ∈ pages, ∀ t ∈ graph q, t ∈ pages) :
    totalRank pages (pagerankStep d pages graph r) = (1 - d) + d * totalRank pages r := by
  have hn : ((pages.length : ℚ)) ≠ 0 := length_cast_ne_zero pages hne
  have hcard : pages.toFinset.card = pages.length := List.toFinset_card_of_nodup hnd
  unfold totalRank
  rw [← List.sum_toFinset _ hnd]
  rw [Finset.sum_congr rfl (fun p _ => pagerankStep_eq d pages graph r hnd p)]
  rw [Finset.sum_add_distrib, Finset.sum_add_distrib, Finset.sum_const, Finset.sum_const, hcard,
    nsmul_eq_mul, nsmul_eq_mul, Finset.sum_comm]
  have hq : ∀ q ∈ pages.toFinset.filter (fun q => 0 < (graph q).length),
      (∑ p ∈ pages.toFinset, ((graph q).count p : ℚ) * (d * (r q / ((graph q).length : ℚ))))
        = d * r q := by
    intro q hq
    rcases Finset.mem_filter.mp hq with ⟨-, hlen⟩
    rw [← Finset.sum_mul]
    have hcnt : (∑ p ∈ pages.toFinset, ((graph q).count p : ℚ))
        = (((graph q).length : ℕ) : ℚ) := by
      rw [← Nat.cast_sum, list_sum_count_mem]
      congr 2
      apply List.filter_eq_self.mpr
      intro t ht
      have : t ∈ pages := hcl q (by
        { have := Finset.mem_filter.mp hq
          exact List.mem_toFinset.mp this.1 }) t ht
      simp [List.mem_toFinset.mpr this]
    rw [hcnt]
    have hlq : (((graph q).length : ℚ)) ≠ 0 := by
      exact_mod_cast Nat.pos_iff_ne_zero.mp hlen
    field_simp
  have hsplit : (∑ q ∈ pages.toFinset.filter (fun q => (graph q).length = 0), r q)
      + (∑ q ∈ pages.toFinset.filter (fun q => 0 < (graph q).length), r q)
      = ∑ q ∈ pages.toFinset, r q := by
    have hcg : pages.toFinset.filter (fun q => (graph q).length = 0)
        = pages.toFinset.filter (fun q => ¬ 0 < (graph q).length) := by
      apply Finset.filter_congr
      intro x _
      omega
    rw [hcg, add_comm]
    exact Finset.sum_filter_add_sum_filter_not pages.toFinset _ r
  rw [Finset.sum_congr rfl hq, ← List.sum_toFinset r hnd, ← hsplit, ← Finset.mul_sum]
  field_simp
  ring

lemma totalAt_zero (d : ℚ) (pages : List Page) (graph : Graph) (hne : pages ≠ []) :
    totalAt d pages graph 0 = 1 := by
  have hn : ((pages.length : ℚ)) ≠ 0 := length_cast_ne_zero pages hne
  unfold totalAt totalRank iterRank
  rw [List.map_const', List.sum_replicate, nsmul_eq_mul]
  field_simp

lemma totalAt_closed (d : ℚ) (pages : List Page) (graph : Graph)
    (hne : pages ≠ []) (hnd : pages.Nodup)
    (hcl : ∀ q ∈ pages, ∀ t ∈ graph q, t ∈ pages) :
    ∀ k, totalAt d pages graph k = 1
  | 0 => totalAt_zero d pages graph hne
  | k + 1 => by
    have hk := totalAt_closed d pages graph hne hnd hcl k
    unfold totalAt iterRank
    rw [totalRank_step d pages graph _ hne hnd hcl]
    unfold totalAt at hk
    rw [hk]
    ring

/-! ## Positivity of the iterates (valid damping, non-empty page set) -/

lemma iterRank_pos (d : ℚ) (pages : List Page) (graph : Graph)
    (hne : pages ≠ []) (hd0 : 0 < d) (hd1 : d < 1) :
    ∀ (k : ℕ) (p : Page), 0 < iterRank d pages graph k p
  | 0, p => by
    have hn : (0 : ℚ) < (pages.length : ℚ) := by
      have : 0 < pages.length := List.length_pos.mpr hne
      exact_mod_cast this
    unfold iterRank
    exact div_pos one_pos hn
  | k + 1, p => by
    have hn : (0 : ℚ) < (pages.length : ℚ) := by
      have : 0 < pages.length := List.length_pos.mpr hne
      exact_mod_cast this
    have ih : ∀ q, 0 < iterRank d pages graph k q :=
      fun q => iterRank_pos d pages graph hne hd0 hd1 k q
    show 0 < pagerankStep d pages graph (iterRank d pages graph k) p
    unfold pagerankStep
    rw [rankUpdate_eq_sum]
    have hbase : 0 < (1 - d) / (pages.length : ℚ) :=
      div_pos (by linarith) hn
    have hds : 0 ≤ danglingSum graph pages (iterRank d pages graph k) := by
      unfold danglingSum
      apply List.sum_nonneg
      intro x hx
      rcases List.mem_map.mp hx with ⟨q, -, rfl⟩
      exact le_of_lt (ih q)
    have hds2 : 0 ≤ d * (danglingSum graph pages (iterRank d pages graph k) / (pages.length : ℚ)) :=
      mul_nonneg (le_of_lt hd0) (div_nonneg hds (le_of_lt hn))
    have hsum : 0 ≤ ((incomingOf pages graph p).map (fun q =>
        if 0 < (graph q).length then d * (iterRank d pages graph k q / ((graph q).length : ℚ))
        else 0)).sum := by
      apply List.sum_nonneg
      intro x hx
      rcases List.mem_map.mp hx with ⟨q, -, rfl⟩
      by_cases h : 0 < (graph q).length
      · rw [if_pos h]
        apply mul_nonneg (le_of_lt hd0)
        apply div_nonneg (le_of_lt (ih q))
        exact_mod_cast Nat.zero_le _
      · rw [if_neg h]
    linarith

lemma totalAt_pos (d : ℚ) (pages : List Page) (graph : Graph)
    (hne : pages ≠ []) (hd0 : 0 < d) (hd1 : d < 1) (k : ℕ) :
    0 < totalAt d pages graph k := by
  unfold totalAt totalRank
  apply List.sum_pos
  · intro x hx
    rcases List.mem_map.mp hx with ⟨q, -, rfl⟩
    exact iterRank_pos d pages graph hne hd0 hd1 k q
  · simpa using hne

/-! ## The convergence loop -/

lemma iterRank_succ (d : ℚ) (pages : List Page) (graph : Graph) (k : ℕ) :
    iterRank d pages graph (k + 1) = pagerankStep d pages graph (iterRank d pages graph k) := rfl

lemma pagerankLoop_zero (d ε : ℚ) (pages : List Page) (graph : Graph)
    (r : Page → ℚ) (it : ℕ) :
    pagerankLoop d ε pages graph r it 0 = .ok (r, it) := rfl

lemma pagerankLoop_succ (d ε : ℚ) (pages : List Page) (graph : Graph)
    (r : Page → ℚ) (it fuel : ℕ) :
    pagerankLoop d ε pages graph r it (fuel + 1)
      = if totalRank pages r = 0 then .error .zeroDivisionError
        else if |totalRank pages (pagerankStep d pages graph r) - totalRank pages r|
            / totalRank pages r < ε
          then .ok (pagerankStep d pages graph r, it + 1)
          else pagerankLoop d ε pages graph (pagerankStep d pages graph r) (it + 1) fuel := rfl

lemma pagerankLoop_spec (d ε : ℚ) (pages : List Page) (graph : Graph)
    (hne : pages ≠ []) (hd0 : 0 < d) (hd1 : d < 1) :
    ∀ (fuel it : ℕ),
      ∃ K, pagerankLoop d ε pages graph (iterRank d pages graph it) it fuel
            = .ok (iterRank d pages graph K, K)
        ∧ it ≤ K ∧ K ≤ it + fuel
        ∧ (∀ j, it ≤ j → j + 2 ≤ K → ¬ changeAt d pages graph j < ε)
        ∧ (K < it + fuel → ∃ j, K = j + 1 ∧ changeAt d pages graph j < ε)
        ∧ (1 ≤ fuel → it + 1 ≤ K)
  | 0, it => by
    refine ⟨it, pagerankLoop_zero d ε pages graph _ it, le_refl it, by omega, ?_, ?_, ?_⟩
    · intro j h1 h2
      omega
    · intro h
      omega
    · intro h
      omega
  | fuel + 1, it => by
    have hpos : 0 < totalAt d pages graph it := totalAt_pos d pages graph hne hd0 hd1 it
    have hne0 : totalRank pages (iterRank d pages graph it) ≠ 0 := ne_of_gt hpos
    rw [pagerankLoop_succ, if_neg hne0, ← iterRank_succ]
    have hch : |totalRank pages (iterRank d pages graph (it + 1))
        - totalRank pages (iterRank d pages graph it)|
        / totalRank pages (iterRank d pages graph it) = changeAt d pages graph it := rfl
    rw [hch]
    by_cases hc : changeAt d pages graph it < ε
    · rw [if_pos hc]
      refine ⟨it + 1, rfl, by omega, by omega, ?_, ?_, ?_⟩
      · intro j h1 h2
        omega
      · intro _
        exact ⟨it, rfl, hc⟩
      · intro _
        omega
    · rw [if_neg hc]
      obtain ⟨K, hloop, hK1, hK2, hmid, hlast, hone⟩ :=
        pagerankLoop_spec d ε pages graph hne hd0 hd1 fuel (it + 1)
      refine ⟨K, hloop, by omega, by omega, ?_, ?_, ?_⟩
      · intro j h1 h2
        rcases Nat.eq_or_lt_of_le h1 with h | h
        · subst h
          exact hc
        · exact hmid j h h2
      · intro h
        exact hlast (by omega)
      · intro _
        omega

/-- `compute_pagerank` in terms of the loop, with the uniform initial vector
recognised as `iterRank 0`. -/
lemma compute_pagerank_eq (graph : Graph) (pages : List Page) (d ε : ℚ) (maxIter : ℕ) :
    compute_pagerank graph pages d ε maxIter
      = match pagerankLoop d ε pages graph (iterRank d pages graph 0) 0 maxIter with
        | .error e => .error e
        | .ok (r, k) => .ok (pages.map (fun p => (p, r p)), k) := rfl

lemma compute_pagerank_spec (graph : Graph) (pages : List Page) (d ε : ℚ) (maxIter : ℕ)
    (hne : pages ≠ []) (hd0 : 0 < d) (hd1 : d < 1) :
    ∃ K, compute_pagerank graph pages d ε maxIter
          = .ok (pages.map (fun p => (p, iterRank d pages graph K p)), K)
      ∧ K ≤ maxIter
      ∧ (∀ j, j + 2 ≤ K → ¬ changeAt d pages graph j < ε)
      ∧ (K < maxIter → ∃ j, K = j + 1 ∧ changeAt d pages graph j < ε)
      ∧ (1 ≤ maxIter → 1 ≤ K) := by
  obtain ⟨K, hloop, -, hK2, hmid, hlast, hone⟩ :=
    pagerankLoop_spec d ε pages graph hne hd0 hd1 maxIter 0
  refine ⟨K, ?_, by omega, ?_, ?_, ?_⟩
  · rw [compute_pagerank_eq, hloop]
  · intro j h2
    exact hmid j (by omega) h2
  · intro h
    exact hlast (by omega)
  · intro h
    have := hone h
    omega

/-! ## Claim C1 — mass conservation -/

/-- C1, counterexample: the claim includes graphs with edges whose targets are
outside the page set, but on the single page `0` linking only to the phantom
page `1` (damping `17/20`), the total rank after the first iteration is
`3/20`, not within any small tolerance of `1`. -/
theorem c1_counterexample :
    totalAt (17/20) [0] gPhantom 1 = 3/20
      ∧ ¬ |totalAt (17/20) [0] gPhantom 1 - 1| < 1/2 := by
  have h : totalAt (17/20) [0] gPhantom 1 = 3/20 := by
    norm_num [totalAt, iterRank, pagerankStep, rankUpdate, danglingSum, danglingNodes,
      incomingOf, totalRank, gPhantom]
  refine ⟨h, ?_⟩
  rw [h, abs_of_nonpos (by norm_num)]
  norm_num

/-- C1, amended: for every non-empty duplicate-free page set and every graph
all of whose edge targets lie in the page set, the total rank mass is exactly
`1` after every iteration (exact arithmetic). -/
theorem c1_mass_conserved_in_corpus (d : ℚ) (pages : List Page) (graph : Graph)
    (hne : pages ≠ []) (hnd : pages.Nodup)
    (hcl : ∀ q ∈ pages, ∀ t ∈ graph q, t ∈ pages) (k : ℕ) :
    totalAt d pages graph k = 1 :=
  totalAt_closed d pages graph hne hnd hcl k

/-- C1, witness: the amended theorem applied to the 2-cycle on `{0, 1}`. -/
theorem c1_witness :
    (([0, 1] : List Page) ≠ [] ∧ ([0, 1] : List Page).Nodup
        ∧ (∀ q ∈ ([0, 1] : List Page), ∀ t ∈ gCycle q, t ∈ ([0, 1] : List Page)))
      ∧ totalAt (17/20) [0, 1] gCycle 2 = 1 :=
  ⟨⟨by decide, by decide, by decide⟩,
    c1_mass_conserved_in_corpus (17/20) [0, 1] gCycle (by decide) (by decide) (by decide) 2⟩

/-! ## Claim C2 — the per-iteration update formula -/

/-- C2, counterexample: the claimed formula sums `rank[q]/outDegree(q)` once
per page `q` with an edge to `p`, but the code adds the contribution once per
edge occurrence.  With the double edge `0 → 1, 0 → 1` on pages `{0, 1}`
(damping `17/20`), the first iteration gives page `1` the value `57/80`,
while the claimed formula yields `1/2`. -/
theorem c2_counterexample :
    iterRank (17/20) [0, 1] gDup 1 1 = 57/80
      ∧ specNewRank (17/20) [0, 1] gDup (iterRank (17/20) [0, 1] gDup 0) 1 = 1/2
      ∧ iterRank (17/20) [0, 1] gDup 1 1
          ≠ specNewRank (17/20) [0, 1] gDup (iterRank (17/20) [0, 1] gDup 0) 1 := by
  have h1 : iterRank (17/20) [0, 1] gDup 1 1 = 57/80 := by
    norm_num [iterRank, pagerankStep, rankUpdate, danglingSum, danglingNodes,
      incomingOf, totalRank, gDup, List.replicate_succ]
  have h2 : specNewRank (17/20) [0, 1] gDup (iterRank (17/20) [0, 1] gDup 0) 1 = 1/2 := by
    norm_num [specNewRank, iterRank, gDup, Finset.filter_insert, Finset.filter_singleton]
    rw [if_neg (by decide : ¬([1, 1] : List Page) = [])]
    norm_num
  refine ⟨h1, h2, ?_⟩
  rw [h1, h2]
  norm_num

/-- C2, amended: the iteration starts from the uniform vector, and each new
value reads only the previous iteration's vector, with the direct sum
weighted by the number of edge occurrences:
`newRank[p] = (1-d)/n + d*danglingSum/n + Σ_q count(q→p) * d*rank[q]/outDegree(q)`
over the pages `q` of positive out-degree. -/
theorem c2_update_formula (d : ℚ) (pages : List Page) (graph : Graph)
    (hnd : pages.Nodup) (k : ℕ) (p : Page) :
    iterRank d pages graph 0 p = 1 / (pages.length : ℚ)
      ∧ iterRank d pages graph (k + 1) p
        = (1 - d) / (pages.length : ℚ)
          + d * ((∑ q ∈ pages.toFinset.filter (fun q => (graph q).length = 0),
              iterRank d pages graph k q) / (pages.length : ℚ))
          + ∑ q ∈ pages.toFinset.filter (fun q => 0 < (graph q).length),
              ((graph q).count p : ℚ)
                * (d * (iterRank d pages graph k q / ((graph q).length : ℚ))) :=
  ⟨rfl, pagerankStep_eq d pages graph (iterRank d pages graph k) hnd p⟩

/-- C2, witness: the amended theorem applied to the double-edge graph. -/
theorem c2_witness :
    ([0, 1] : List Page).Nodup
      ∧ iterRank (17/20) [0, 1] gDup 0 1 = 1 / ((([0, 1] : List Page)).length : ℚ) :=
  ⟨by decide, (c2_update_formula (17/20) [0, 1] gDup (by decide) 0 1).1⟩

/-! ## Claim C3 — the stopping rule -/

/-- C3: on a non-empty page set with valid damping, the engine returns the
vector after `K` iterations together with the count `K`, where `K ≤ maxIter`,
no iteration before the last one met the tolerance, and if the engine stopped
short of `maxIter` then its last iteration did meet it — i.e. it stops at the
first iteration whose relative total-mass change is below `ε`, or after
`maxIter` iterations, whichever comes first. -/
theorem c3_stopping_rule (graph : Graph) (pages : List Page) (d ε : ℚ) (maxIter : ℕ)
    (hne : pages ≠ []) (hd0 : 0 < d) (hd1 : d < 1) :
    ∃ K, compute_pagerank graph pages d ε maxIter
          = .ok (pages.map (fun p => (p, iterRank d pages graph K p)), K)
      ∧ K ≤ maxIter
      ∧ (∀ j, j + 2 ≤ K → ¬ changeAt d pages graph j < ε)
      ∧ (K < maxIter → ∃ j, K = j + 1 ∧ changeAt d pages graph j < ε)
      ∧ (1 ≤ maxIter → 1 ≤ K) :=
  compute_pagerank_spec graph pages d ε maxIter hne hd0 hd1

/-- C3, witness: the stopping rule instantiated on a single dangling page. -/
theorem c3_witness :
    ∃ K, compute_pagerank gEmptyOut [0] (17/20) (1/200) 100
          = .ok (([0] : List Page).map (fun p => (p, iterRank (17/20) [0] gEmptyOut K p)), K)
      ∧ K ≤ 100
      ∧ (∀ j, j + 2 ≤ K → ¬ changeAt (17/20) [0] gEmptyOut j < 1/200)
      ∧ (K < 100 → ∃ j, K = j + 1 ∧ changeAt (17/20) [0] gEmptyOut j < 1/200)
      ∧ (1 ≤ 100 → 1 ≤ K) :=
  c3_stopping_rule gEmptyOut [0] (17/20) (1/200) 100 (by decide) (by norm_num) (by norm_num)

/-! ## Claim C4 — what the engine returns -/

/-- C4, counterexample: the function returns only `(pagerank, iteration)`;
there is no convergence flag in the result.  Two runs on the phantom-edge
graph — one stopping because `change = 17/20 < 9/10` (converged), one
stopping because `maxIter = 1` is exhausted (`17/20 ≥ 1/2` never met) —
return exactly the same value. -/
theorem c4_counterexample :
    compute_pagerank gPhantom [0] (17/20) (9/10) 1
        = compute_pagerank gPhantom [0] (17/20) (1/2) 1
      ∧ (∃ j, j < 1 ∧ changeAt (17/20) [0] gPhantom j < 9/10)
      ∧ ¬ (∃ j, j < 1 ∧ changeAt (17/20) [0] gPhantom j < 1/2) := by
  have hch : changeAt (17/20) [0] gPhantom 0 = 17/20 := by
    norm_num [changeAt, totalAt, iterRank, pagerankStep, rankUpdate, danglingSum,
      danglingNodes, incomingOf, totalRank, gPhantom]
  refine ⟨?_, ⟨0, by norm_num, by rw [hch]; norm_num⟩, ?_⟩
  · have hA : compute_pagerank gPhantom [0] (17/20) (9/10) 1 = .ok ([(0, 3/20)], 1) := by
      norm_num [compute_pagerank, pagerankLoop, pagerankStep, rankUpdate, danglingSum,
        danglingNodes, incomingOf, totalRank, gPhantom, abs_of_nonpos]
    have hB : compute_pagerank gPhantom [0] (17/20) (1/2) 1 = .ok ([(0, 3/20)], 1) := by
      norm_num [compute_pagerank, pagerankLoop, pagerankStep, rankUpdate, danglingSum,
        danglingNodes, incomingOf, totalRank, gPhantom, abs_of_nonpos]
    rw [hA, hB]
  · rintro ⟨j, hj, hlt⟩
    have hj0 : j = 0 := by omega
    rw [hj0, hch] at hlt
    norm_num at hlt

/-- C4, amended: the engine's result is the pair (rank vector, iteration
count) and nothing more; for valid parameters it always returns a result —
non-convergence is not reported as a failure (the convergence message is only
printed, not returned). -/
theorem c4_result_is_vector_and_count (graph : Graph) (pages : List Page)
    (d ε : ℚ) (maxIter : ℕ) (hne : pages ≠ []) (hd0 : 0 < d) (hd1 : d < 1) :
    ∃ v K, compute_pagerank graph pages d ε maxIter = .ok (v, K) := by
  obtain ⟨K, h, -⟩ := compute_pagerank_spec graph pages d ε maxIter hne hd0 hd1
  exact ⟨_, K, h⟩

/-- C4, witness: the amended theorem on the phantom-edge graph. -/
theorem c4_witness :
    ∃ v K, compute_pagerank gPhantom [0] (17/20) (1/2) 1 = .ok (v, K) :=
  c4_result_is_vector_and_count gPhantom [0] (17/20) (1/2) 1
    (by decide) (by norm_num) (by norm_num)

/-! ## Claim C5 — immediate convergence on in-corpus graphs -/

/-- C5: if every edge target lies in the (non-empty, duplicate-free) page
set, each iteration preserves the total rank mass exactly, so the relative
change after the first iteration is `0` and the engine returns after exactly
one iteration for every positive tolerance and every `maxIter ≥ 1`,
regardless of whether the individual ranks have stabilised. -/
theorem c5_one_iteration_in_corpus (graph : Graph) (pages : List Page) (d ε : ℚ)
    (maxIter : ℕ) (hne : pages ≠ []) (hnd : pages.Nodup)
    (hcl : ∀ q ∈ pages, ∀ t ∈ graph q, t ∈ pages)
    (hε : 0 < ε) (hmax : 1 ≤ maxIter) :
    (∀ k, totalAt d pages graph k = 1)
      ∧ changeAt d pages graph 0 = 0
      ∧ compute_pagerank graph pages d ε maxIter
          = .ok (pages.map (fun p => (p, iterRank d pages graph 1 p)), 1) := by
  have htot : ∀ k, totalAt d pages graph k = 1 := totalAt_closed d pages graph hne hnd hcl
  have hch : changeAt d pages graph 0 = 0 := by
    unfold changeAt
    rw [htot 0, htot 1]
    norm_num
  refine ⟨htot, hch, ?_⟩
  obtain ⟨f, rfl⟩ : ∃ f, maxIter = f + 1 := ⟨maxIter - 1, by omega⟩
  rw [compute_pagerank_eq, pagerankLoop_succ]
  have h0 : totalRank pages (iterRank d pages graph 0) = 1 := htot 0
  have h1 : totalRank pages (pagerankStep d pages graph (iterRank d pages graph 0)) = 1 :=
    htot 1
  rw [h0, h1, if_neg one_ne_zero, show |(1 : ℚ) - 1| / 1 = 0 by norm_num, if_pos hε,
    ← iterRank_succ]

/-- C5, witness: one-iteration convergence on the 2-cycle. -/
theorem c5_witness :
    (∀ k, totalAt (17/20) [0, 1] gCycle k = 1)
      ∧ changeAt (17/20) [0, 1] gCycle 0 = 0
      ∧ compute_pagerank gCycle [0, 1] (17/20) (1/200) 100
          = .ok (([0, 1] : List Page).map (fun p => (p, iterRank (17/20) [0, 1] gCycle 1 p)), 1) :=
  c5_one_iteration_in_corpus gCycle [0, 1] (17/20) (1/200) 100
    (by decide) (by decide) (by decide) (by norm_num) (by norm_num)

/-! ## Claim C6 — parameter validation -/

/-- C6, counterexample: the code never validates its parameters.  With the
invalid damping factor `2 ∉ (0,1)` on a single dangling page the engine does
not fail: it runs one full iteration and returns a rank vector. -/
theorem c6_counterexample :
    compute_pagerank gEmptyOut [0] 2 (1/100) 5 = .ok ([(0, 1)], 1)
      ∧ ¬ ((0 : ℚ) < 2 ∧ (2 : ℚ) < 1) := by
  constructor
  · norm_num [compute_pagerank, pagerankLoop, pagerankStep, rankUpdate, danglingSum,
      danglingNodes, incomingOf, totalRank, gEmptyOut]
  · norm_num

/-- C6, amended: no parameter is rejected; the engine computes with whatever
values it receives.  In particular `maxIter = 0` (≤ 0) does not raise: the
loop body never runs and the initial uniform vector is returned with
iteration count `0`, for any damping and tolerance whatsoever. -/
theorem c6_no_parameter_validation (graph : Graph) (pages : List Page) (d ε : ℚ) :
    compute_pagerank graph pages d ε 0
      = .ok (pages.map (fun p => (p, 1 / (pages.length : ℚ))), 0) := rfl

/-- C6, witness: the amended theorem with invalid damping `2` and invalid
tolerance `0` on a one-page corpus. -/
theorem c6_witness :
    compute_pagerank gEmptyOut [0] 2 0 0
      = .ok (([0] : List Page).map (fun p => (p, 1 / ((([0] : List Page)).length : ℚ))), 0) :=
  c6_no_parameter_validation gEmptyOut [0] 2 0

/-! ## Claim C7 — graph builder failure condition -/

lemma union_insert_comm (z : Page) (acc T : Finset Page) :
    insert z acc ∪ T = acc ∪ insert z T := by
  ext a
  simp only [Finset.mem_union, Finset.mem_insert]
  tauto

lemma collectPages_spec : ∀ (files : List (String × String)) (acc : Finset Page),
    collectPages files acc
      = if ∀ fc ∈ files, (parsePage fc.1).isSome = true
          then .ok (acc ∪ (files.filterMap (fun fc => parsePage fc.1)).toFinset)
          else .error .valueError
  | [], acc => by
    simp [collectPages]
  | fc :: rest, acc => by
    cases hp : parsePage fc.1 with
    | none =>
      have hcond : ¬ ∀ x ∈ fc :: rest, (parsePage x.1).isSome = true := by
        intro h
        have := h fc (List.mem_cons_self fc rest)
        rw [hp] at this
        simp at this
      rw [if_neg hcond]
      simp only [collectPages, hp]
    | some z =>
      have hrec := collectPages_spec rest (insert z acc)
      simp only [collectPages, hp]
      rw [hrec]
      by_cases hc : ∀ x ∈ rest, (parsePage x.1).isSome = true
      · have hcall : ∀ x ∈ fc :: rest, (parsePage x.1).isSome = true := by
          intro x hx
          rcases List.mem_cons.mp hx with h | h
          · rw [h, hp]
            rfl
          · exact hc x h
        rw [if_pos hc, if_pos hcall]
        congr 1
        rw [List.filterMap_cons]
        simp only [hp, List.toFinset_cons]
        exact union_insert_comm z acc _
      · have hnall : ¬ ∀ x ∈ fc :: rest, (parsePage x.1).isSome = true := by
          intro h
          exact hc (fun x hx => h x (List.mem_cons_of_mem fc hx))
        rw [if_neg hc, if_neg hnall]

/-- C7, counterexample: the claim says the builder fails exactly on filenames
not of the form `<digits>.html`, but `"12.html.html"` is not of that form
and the builder still succeeds, producing the page set `{12}` (the code
removes every occurrence of `.html` before parsing). -/
theorem c7_counterexample :
    buildPages [("12.html.html", "")] = .ok {12}
      ∧ isDigitsHtml "12.html.html" = false := by
  constructor
  · decide
  · decide

/-- C7, amended: the builder fails (raising `ValueError`, with no partial
graph returned) iff some filename, after removing every occurrence of the
substring `.html`, does not parse under Python's `int`; on success, the page
set is exactly the set of integers so parsed — which may include negative
numbers and identifiers coming from filenames not of the form
`<digits>.html`. -/
theorem c7_fail_iff_int_parse_fails (files : List (String × String)) :
    buildPages files
      = if ∀ fc ∈ files, (parsePage fc.1).isSome = true
          then .ok ((files.filterMap (fun fc => parsePage fc.1)).toFinset)
          else .error .valueError := by
  have h := collectPages_spec files ∅
  unfold buildPages build_graph
  by_cases hc : ∀ fc ∈ files, (parsePage fc.1).isSome = true
  · rw [if_pos hc] at h
    rw [if_pos hc, h]
    simp [Except.map, Except.bind]
  · rw [if_neg hc] at h
    rw [if_neg hc, h]
    rfl

/-- C7, witness: the amended characterisation at a well-formed one-file corpus. -/
theorem c7_witness :
    buildPages [("3.html", "")]
      = if ∀ fc ∈ [("3.html", "")], (parsePage fc.1).isSome = true
          then .ok (([("3.html", "")].filterMap (fun fc => parsePage fc.1)).toFinset)
          else .error .valueError :=
  c7_fail_iff_int_parse_fails [("3.html", "")]

/-! ## Claim C8 — phantom targets get no rank entry -/

/-- C8: on a non-empty page set whose graph has at least one edge leaving the
corpus, the engine (with valid damping) still returns a result, and the
returned rank dictionary has an entry for exactly the pages of the page set:
a phantom target never receives one. -/
theorem c8_phantom_targets_no_entry (graph : Graph) (pages : List Page)
    (d ε : ℚ) (maxIter : ℕ) (hne : pages ≠ []) (hd0 : 0 < d) (hd1 : d < 1)
    (_hph : ∃ q ∈ pages, ∃ t ∈ graph q, t ∉ pages) :
    ∃ v K, compute_pagerank graph pages d ε maxIter = .ok (v, K)
      ∧ v.map Prod.fst = pages := by
  obtain ⟨K, h, -⟩ := compute_pagerank_spec graph pages d ε maxIter hne hd0 hd1
  refine ⟨_, K, h, ?_⟩
  have hid : (Prod.fst ∘ fun p => (p, iterRank d pages graph K p)) = id := rfl
  rw [List.map_map, hid, List.map_id]

/-- C8, witness: page `0` links to the out-of-corpus page `1`. -/
theorem c8_witness :
    ∃ v K, compute_pagerank gPhantom [0] (17/20) (1/200) 100 = .ok (v, K)
      ∧ v.map Prod.fst = [0] :=
  c8_phantom_targets_no_entry gPhantom [0] (17/20) (1/200) 100
    (by decide) (by norm_num) (by norm_num) ⟨0, by decide, 1, by decide, by decide⟩

/-! ## Claim C9 — phantom edges and the in-degree statistics -/

/-- C9, counterexample: an edge to an out-of-corpus target is tallied under
the phantom key only and then dropped: on the page set `{0}` with the single
edge `0 → 1`, the in-degree distribution is `[0]` — identical to that of the
graph with no edges at all — although one outgoing edge exists.  The edge is
not counted in the distribution over which the statistics are computed. -/
theorem c9_counterexample :
    incomingValues [0] gPhantom = [0]
      ∧ (incomingValues [0] gPhantom).sum = 0
      ∧ (outgoingCounts gPhantom [0]).sum = 1
      ∧ incomingValues [0] gPhantom = incomingValues [0] gEmptyOut := by
  refine ⟨by decide, by decide, by decide, by decide⟩

/-- C9, amended: edges whose target is outside the page set never contribute
to the in-degree distribution: `incoming_values` is read only at the pages of
the page set, so it coincides with the distribution of the graph whose
phantom edges are removed.  (Out-degree statistics, by contrast, do count
phantom edges.) -/
theorem c9_phantom_edges_uncounted (pages : List Page) (graph : Graph) :
    incomingValues pages graph = incomingValues pages (inCorpus pages graph) := by
  unfold incomingValues
  refine List.map_congr_left ?_
  intro t ht
  unfold incomingCount
  congr 1
  refine List.map_congr_left ?_
  intro p _
  show (graph p).count t = (inCorpus pages graph p).count t
  unfold inCorpus
  rw [List.count_filter]
  simp [ht]

/-- C9, witness: the amended theorem on the phantom-edge graph. -/
theorem c9_witness :
    incomingValues [0] gPhantom = incomingValues [0] (inCorpus [0] gPhantom) :=
  c9_phantom_edges_uncounted [0] gPhantom

/-! ## Claim C10 — empty and small page sets -/

lemma exceptOk_exists {α : Type} (x : Except PyError α) (h : x.isOk = true) :
    ∃ a, x = .ok a := by
  cases x with
  | error e => exact absurd h (by simp [Except.isOk, Except.toBool])
  | ok a => exact ⟨a, rfl⟩

lemma pyMean_isOk (l : List ℕ) (h : l ≠ []) : (pyMean l).isOk = true := by
  cases l with
  | nil => exact absurd rfl h
  | cons a t => simp [pyMean, Except.isOk, Except.toBool]

lemma pyMedian_isOk (l : List ℕ) (h : l.length ≠ 0) : (pyMedian l).isOk = true := by
  by_cases hm : l.length % 2 = 1 <;>
    simp [pyMedian, h, hm, Except.isOk, Except.toBool]

lemma pyMax_isOk (l : List ℕ) (h : l ≠ []) : (pyMax l).isOk = true := by
  cases l with
  | nil => exact absurd rfl h
  | cons a t => simp [pyMax, Except.isOk, Except.toBool]

lemma pyMin_isOk (l : List ℕ) (h : l ≠ []) : (pyMin l).isOk = true := by
  cases l with
  | nil => exact absurd rfl h
  | cons a t => simp [pyMin, Except.isOk, Except.toBool]

lemma pyQuantiles_isOk (l : List ℕ) (h : 2 ≤ l.length) : (pyQuantiles l 5).isOk = true := by
  simp [pyQuantiles, show ¬(5 < 1) by omega, show ¬(l.length < 2) by omega,
    Except.isOk, Except.toBool]

/-- C10, counterexample: the claim also asserts that the statistics engine
succeeds on every non-empty page set, but on the singleton page set `{0}` it
fails — `statistics.quantiles` requires at least two data points. -/
theorem c10_counterexample :
    ([0] : List Page) ≠ []
      ∧ compute_statistics gEmptyOut [0] = .error .statisticsError := by
  refine ⟨by decide, ?_⟩
  norm_num [compute_statistics, outgoingCounts, incomingValues, incomingCount, pyMean,
    pyMedian, pyMax, pyMin, pyQuantiles, pySort, insertSorted, gEmptyOut, Except.bind]
  rfl

/-- C10, amended: on the empty page set the statistics engine raises
(`StatisticsError` from the mean of empty data) and the PageRank engine
raises (`ZeroDivisionError` in its convergence check) whenever `maxIter ≥ 1`;
the statistics engine succeeds precisely on page sets with at least two
pages (one page makes the quintile computation raise). -/
theorem c10_empty_fails_small_fails (graph : Graph) :
    compute_statistics graph [] = .error .statisticsError
      ∧ (∀ d ε : ℚ, ∀ maxIter : ℕ, 1 ≤ maxIter →
          compute_pagerank graph [] d ε maxIter = .error .zeroDivisionError)
      ∧ (∀ pages : List Page, 2 ≤ pages.length →
          (compute_statistics graph pages).isOk = true) := by
  refine ⟨rfl, ?_, ?_⟩
  · intro d ε maxIter hmax
    obtain ⟨f, rfl⟩ : ∃ f, maxIter = f + 1 := ⟨maxIter - 1, by omega⟩
    rw [compute_pagerank_eq, pagerankLoop_succ,
      if_pos (show totalRank [] (iterRank d [] graph 0) = 0 from rfl)]
  · intro pages hlen
    have hO : (outgoingCounts graph pages).length = pages.length := by
      simp [outgoingCounts]
    have hI : (incomingValues pages graph).length = pages.length := by
      simp [incomingValues]
    have hOne : outgoingCounts graph pages ≠ [] := by
      intro hh
      rw [hh] at hO
      simp at hO
      omega
    have hIne : incomingValues pages graph ≠ [] := by
      intro hh
      rw [hh] at hI
      simp at hI
      omega
    obtain ⟨a1, e1⟩ := exceptOk_exists _ (pyMean_isOk _ hOne)
    obtain ⟨a2, e2⟩ := exceptOk_exists _ (pyMedian_isOk (outgoingCounts graph pages) (by omega))
    obtain ⟨a3, e3⟩ := exceptOk_exists _ (pyMax_isOk _ hOne)
    obtain ⟨a4, e4⟩ := exceptOk_exists _ (pyMin_isOk _ hOne)
    obtain ⟨a5, e5⟩ := exceptOk_exists _ (pyQuantiles_isOk (outgoingCounts graph pages) (by omega))
    obtain ⟨b1, f1⟩ := exceptOk_exists _ (pyMean_isOk _ hIne)
    obtain ⟨b2, f2⟩ := exceptOk_exists _ (pyMedian_isOk (incomingValues pages graph) (by omega))
    obtain ⟨b3, f3⟩ := exceptOk_exists _ (pyMax_isOk _ hIne)
    obtain ⟨b4, f4⟩ := exceptOk_exists _ (pyMin_isOk _ hIne)
    obtain ⟨b5, f5⟩ := exceptOk_exists _ (pyQuantiles_isOk (incomingValues pages graph) (by omega))
    simp only [compute_statistics, e1, e2, e3, e4, e5, f1, f2, f3, f4, f5]
    rfl

/-- C10, witness: the amended theorem applied with no pages, with `maxIter = 3`,
and with the two-page set `{0, 1}`. -/
theorem c10_witness :
    compute_statistics gEmptyOut [] = .error .statisticsError
      ∧ compute_pagerank gEmptyOut [] 1 1 3 = .error .zeroDivisionError
      ∧ (compute_statistics gEmptyOut [0, 1]).isOk = true :=
  ⟨(c10_empty_fails_small_fails gEmptyOut).1,
    (c10_empty_fails_small_fails gEmptyOut).2.1 1 1 3 (by norm_num),
    (c10_empty_fails_small_fails gEmptyOut).2.2 [0, 1] (by norm_num)⟩

end Pagerank
